import Mathlib

/-!
Verification development for the "Vector to G-Code" plugin core
(`Vector to G-Code/code.ts`).

The TypeScript source is shallowly embedded below.  JavaScript `number`
values are modelled as rationals (`ℚ`); JavaScript arrays as `List`s;
the insertion-ordered `Map<string, Path[]>` as an association list
`List (String × List Path)`.  Functions that the source writes with
unbounded recursion (the adaptive bezier flattener) are embedded with an
explicit fuel parameter returning `Option`, where `none` stands for
non-termination within the given fuel.  Real-valued distance comparisons
(`Math.sqrt`) are embedded by comparing exact squared distances, with a
bridging lemma (`flatnessLE_iff_sqrt`) showing the boolean test agrees
with the source's real-valued `flatness <= tolerance` comparison.
-/

namespace FigmaGCode

attribute [local semireducible] Rat.mul Rat.add Rat.sub Rat.inv Rat.ofScientific

/-- JavaScript number, embedded as an exact rational. -/
abbrev JsNum := ℚ

/-- `interface Point { x, y }` from the source. -/
structure Point where
  x : JsNum
  y : JsNum
deriving DecidableEq, Repr

/-- `interface StrokeColor { r, g, b, a }` from the source. -/
structure StrokeColor where
  r : JsNum
  g : JsNum
  b : JsNum
  a : JsNum
deriving DecidableEq, Repr

/-- `interface Path { points, closed, color? }` from the source. -/
structure Path where
  points : List Point
  closed : Bool
  color : Option StrokeColor
deriving DecidableEq, Repr

/-- `units: 'mm' | 'inch'` from `interface Settings`. -/
inductive Units where
  | mm
  | inch
deriving DecidableEq, Repr

/-- `interface Settings` from the source. -/
structure Settings where
  units : Units
  scale : JsNum
  feedRate : JsNum
  penUpCmd : String
  penDownCmd : String
deriving DecidableEq, Repr

/-- `interface Origin { x, y, height, frame }` from the source.  The
`frame : FrameNode | null` field is only ever consulted for nullness
(`origin.frame ? 'existing frame' : 'auto-generated frame'`), so it is
embedded as a `Bool` that is `true` when a frame object is present. -/
structure Origin where
  x : JsNum
  y : JsNum
  height : JsNum
  frame : Bool
deriving DecidableEq, Repr

/-- Figma `Transform`, a 2×3 matrix `[[a, c, e], [b, d, f]]`. -/
structure Transform where
  a : JsNum
  c : JsNum
  e : JsNum
  b : JsNum
  d : JsNum
  f : JsNum
deriving DecidableEq, Repr

/-- `const BEZIER_TOLERANCE = 0.5` from the source. -/
def BEZIER_TOLERANCE : JsNum := 1 / 2

/-! ### Small string-rendering helpers (models of JavaScript builtins)

The source renders numbers through JavaScript builtins
(`Number.prototype.toFixed`, `Number.prototype.toString(16)`,
`Math.round`).  These are modelled here over `ℚ`/`ℕ`/`ℤ` following the
ECMAScript specification of those operations. -/

/-- One decimal digit character. -/
def digitChar (d : ℕ) : Char :=
  match d with
  | 0 => '0'
  | 1 => '1'
  | 2 => '2'
  | 3 => '3'
  | 4 => '4'
  | 5 => '5'
  | 6 => '6'
  | 7 => '7'
  | 8 => '8'
  | _ => '9'

/-- One lowercase hexadecimal digit character, as produced by
JavaScript `Number.prototype.toString(16)`. -/
def hexDigitChar (d : ℕ) : Char :=
  match d with
  | 0 => '0'
  | 1 => '1'
  | 2 => '2'
  | 3 => '3'
  | 4 => '4'
  | 5 => '5'
  | 6 => '6'
  | 7 => '7'
  | 8 => '8'
  | 9 => '9'
  | 10 => 'a'
  | 11 => 'b'
  | 12 => 'c'
  | 13 => 'd'
  | 14 => 'e'
  | _ => 'f'

/-- Digit list of `n` in the given base (most significant first); the
first argument is fuel (taking `fuel = n` is always enough). -/
def natDigitsAux (base : ℕ) (digit : ℕ → Char) : ℕ → ℕ → List Char
  | 0, _ => []
  | _ + 1, 0 => []
  | fuel + 1, n + 1 =>
    natDigitsAux base digit fuel ((n + 1) / base) ++ [digit ((n + 1) % base)]

/-- Decimal rendering of a natural number. -/
def natToStr (n : ℕ) : String :=
  if n = 0 then "0" else String.mk (natDigitsAux 10 digitChar n n)

/-- Lowercase hexadecimal rendering of a natural number, as produced by
JavaScript `Number.prototype.toString(16)` on a nonnegative integer. -/
def natToHexStr (n : ℕ) : String :=
  if n = 0 then "0" else String.mk (natDigitsAux 16 hexDigitChar n n)

/-- Rendering of an integer in base 16, as produced by JavaScript
`Number.prototype.toString(16)` on an integral value. -/
def intToHexStr (z : ℤ) : String :=
  if z < 0 then "-" ++ natToHexStr z.natAbs else natToHexStr z.toNat

/-- `Math.round`: round half toward positive infinity. -/
def jsRound (q : ℚ) : ℤ := Rat.floor (q + 1 / 2)

/-- Uppercasing of a string, as by `String.prototype.toUpperCase`
restricted to the ASCII strings the source produces. -/
def strUpper (s : String) : String := String.mk (s.data.map Char.toUpper)

/-! ### Color grouping (`colorToHex`, `groupPathsByColor`) -/

/-- Inner helper `toHex` of `colorToHex`: round the 0..1 channel to
8 bits, render in hexadecimal, pad to at least two characters. -/
def toHexChannel (n : JsNum) : String :=
  let hex := intToHexStr (jsRound (n * 255))
  if hex.length = 1 then "0" ++ hex else hex

/-- `colorToHex` from the source: `#rrggbb` key over the R, G, B
channels only (alpha is not consulted), uppercased. -/
def colorToHex (color : StrokeColor) : String :=
  strUpper ("#" ++ toHexChannel color.r ++ toHexChannel color.g ++ toHexChannel color.b)

/-- The grouping key computed inside `groupPathsByColor`:
`path.color ? colorToHex(path.color) : 'DEFAULT'`. -/
def keyOf (p : Path) : String :=
  match p.color with
  | some c => colorToHex c
  | none => "DEFAULT"

/-- One step of `groupPathsByColor`: push `p` onto the bucket of `key`
in the insertion-ordered map, creating the bucket at the end if absent
(JavaScript `Map` iterates keys in insertion order). -/
def insertGroup : List (String × List Path) → String → Path → List (String × List Path)
  | [], key, p => [(key, [p])]
  | (k, ps) :: rest, key, p =>
    if k = key then (k, ps ++ [p]) :: rest else (k, ps) :: insertGroup rest key p

/-- `groupPathsByColor` from the source, with the insertion-ordered
`Map<string, Path[]>` embedded as an association list. -/
def groupPathsByColor (paths : List Path) : List (String × List Path) :=
  paths.foldl (fun groups p => insertGroup groups (keyOf p) p) []

/-! ### Specification-side grouping, following §4.5 of the spec -/

/-- First-occurrence deduplication: keys in order of first appearance. -/
def firstOccurrences (ks : List String) : List String :=
  ks.foldl (fun acc k => if k ∈ acc then acc else acc ++ [k]) []

/-- Grouping as §4.5 words it: buckets ordered by first appearance of
their key, each bucket the input subsequence with that key. -/
def specGroup (paths : List Path) : List (String × List Path) :=
  (firstOccurrences (paths.map keyOf)).map
    (fun k => (k, paths.filter (fun p => keyOf p = k)))

/-! ### Bezier flattening (`linearizeCubicBezier` and helpers)

`pointToLineDistance` in the source returns a real distance computed
with `Math.sqrt`; the only use of distances is the comparison
`cubicBezierFlatness(p0,p1,p2,p3) <= tolerance` inside
`linearizeCubicBezier`.  The embedding keeps the arithmetic exact by
computing squared distances and deciding the comparison on squares;
`flatnessLE_iff_sqrt` below proves this boolean equal to the source's
real-valued comparison. -/

/-- `midpoint` from the source. -/
def midpoint (a b : Point) : Point := ⟨(a.x + b.x) / 2, (a.y + b.y) / 2⟩

/-- Square of `pointToLineDistance(p, a, b)` from the source: squared
perpendicular distance from `p` to the line through `a` and `b`, with
the source's fallback to the squared point distance when `a = b`. -/
def pointToLineDistSq (p a b : Point) : ℚ :=
  let dx := b.x - a.x
  let dy := b.y - a.y
  let lengthSq := dx * dx + dy * dy
  if lengthSq = 0 then (p.x - a.x) ^ 2 + (p.y - a.y) ^ 2
  else ((p.x - a.x) * dy - (p.y - a.y) * dx) ^ 2 / lengthSq

/-- The source's flatness test
`cubicBezierFlatness(p0,p1,p2,p3) <= tolerance`, where
`cubicBezierFlatness` is `max(d1, d2)` over the distances of the two
control points to the chord `p0p3`, decided on exact squares. -/
def flatnessLE (p0 p1 p2 p3 : Point) (tolerance : ℚ) : Bool :=
  decide (0 ≤ tolerance ∧ pointToLineDistSq p1 p0 p3 ≤ tolerance ^ 2
    ∧ pointToLineDistSq p2 p0 p3 ≤ tolerance ^ 2)

/-- `linearizeCubicBezier` from the source.  The source recursion is
unbounded; `fuel` bounds the nesting depth, and `none` means the
recursion did not finish within `fuel` nested levels. -/
def linearizeCubicBezier : ℕ → Point → Point → Point → Point → ℚ → Option (List Point)
  | 0, _, _, _, _, _ => none
  | fuel + 1, p0, p1, p2, p3, tolerance =>
    if flatnessLE p0 p1 p2 p3 tolerance then
      some [p3]
    else
      let mid01 := midpoint p0 p1
      let mid12 := midpoint p1 p2
      let mid23 := midpoint p2 p3
      let mid012 := midpoint mid01 mid12
      let mid123 := midpoint mid12 mid23
      let mid0123 := midpoint mid012 mid123
      match linearizeCubicBezier fuel p0 mid01 mid012 mid0123 tolerance,
            linearizeCubicBezier fuel mid0123 mid123 mid23 p3 tolerance with
      | some la, some lb => some (la ++ lb)
      | _, _ => none

/-- `linearizeQuadraticBezier` from the source: elevate the quadratic
to a cubic with the 2/3 rule, then flatten the cubic. -/
def linearizeQuadraticBezier (fuel : ℕ) (p0 p1 p2 : Point) (tolerance : ℚ) :
    Option (List Point) :=
  let cp1 : Point := ⟨p0.x + 2 / 3 * (p1.x - p0.x), p0.y + 2 / 3 * (p1.y - p0.y)⟩
  let cp2 : Point := ⟨p2.x + 2 / 3 * (p1.x - p2.x), p2.y + 2 / 3 * (p1.y - p2.y)⟩
  linearizeCubicBezier fuel p0 cp1 cp2 p2 tolerance

/-! ### Path-data parsing (`parsePathData`)

The source first tokenizes the SVG-like data string with
`data.match(/[MLCQZ][^MLCQZ]*/gi)` and `parseFloat` into a sequence of
commands, each a (case-normalized) letter in `M,L,C,Q,Z` with a list of
numeric arguments.  The embedding starts from that tokenized command
list; the `switch` body of `parsePathData` is translated verbatim. -/

/-- The command letters the source's tokenizer can produce
(`cmd[0].toUpperCase()` over the regex `[MLCQZ]`). -/
inductive CmdKind where
  | M
  | L
  | C
  | Q
  | Z
deriving DecidableEq, Repr

/-- One tokenized path command: a letter plus its parsed numeric
arguments. -/
abbrev PathCmd := CmdKind × List JsNum

/-- `transformPoint` from the source: apply the 2×3 affine transform
`[[a, c, e], [b, d, f]]`. -/
def transformPoint (x y : JsNum) (t : Transform) : Point :=
  ⟨t.a * x + t.c * y + t.e, t.b * x + t.d * y + t.f⟩

/-- The identity transform (Figma's default absolute transform for a
node at the origin). -/
def idTransform : Transform := ⟨1, 0, 0, 0, 1, 0⟩

/-- Mutable state of the `parsePathData` loop: the accumulated points,
the `closed` flag, and the current point. -/
structure PState where
  points : List Point
  closed : Bool
  currentX : JsNum
  currentY : JsNum
deriving DecidableEq, Repr

/-- One iteration of the `parsePathData` command loop (the `switch`
statement), on the already-tokenized command.  Commands with too few
arguments are skipped (state unchanged), mirroring the source's
`if (args.length >= n)` guards.  The `C`/`Q` cases call the flattener,
so they inherit its fuel and return `none` on fuel exhaustion. -/
def stepCmd (fuel : ℕ) (transform : Transform) (st : PState) :
    PathCmd → Option PState
  | (CmdKind.M, x :: y :: _) =>
    some { st with
      currentX := x, currentY := y,
      points := st.points ++ [transformPoint x y transform] }
  | (CmdKind.M, _) => some st
  | (CmdKind.L, x :: y :: _) =>
    some { st with
      currentX := x, currentY := y,
      points := st.points ++ [transformPoint x y transform] }
  | (CmdKind.L, _) => some st
  | (CmdKind.C, x1 :: y1 :: x2 :: y2 :: x :: y :: _) =>
    let p0 := transformPoint st.currentX st.currentY transform
    let p1 := transformPoint x1 y1 transform
    let p2 := transformPoint x2 y2 transform
    let p3 := transformPoint x y transform
    (linearizeCubicBezier fuel p0 p1 p2 p3 BEZIER_TOLERANCE).map fun bezierPoints =>
      { st with points := st.points ++ bezierPoints, currentX := x, currentY := y }
  | (CmdKind.C, _) => some st
  | (CmdKind.Q, qx :: qy :: x :: y :: _) =>
    let p0 := transformPoint st.currentX st.currentY transform
    let p1 := transformPoint qx qy transform
    let p2 := transformPoint x y transform
    (linearizeQuadraticBezier fuel p0 p1 p2 BEZIER_TOLERANCE).map fun bezierPoints =>
      { st with points := st.points ++ bezierPoints, currentX := x, currentY := y }
  | (CmdKind.Q, _) => some st
  | (CmdKind.Z, _) =>
    some { st with
      closed := true,
      points :=
        match st.points.head?, st.points.getLast? with
        | some first, some lastP =>
          if lastP.x ≠ first.x ∨ lastP.y ≠ first.y then st.points ++ [first]
          else st.points
        | _, _ => st.points }

/-- The `parsePathData` command loop over a list of tokenized
commands. -/
def runCmds (fuel : ℕ) (transform : Transform) :
    List PathCmd → PState → Option PState
  | [], st => some st
  | c :: cs, st =>
    match stepCmd fuel transform st c with
    | some st' => runCmds fuel transform cs st'
    | none => none

/-- `parsePathData` from the source, over tokenized commands: run the
loop from the initial state and return `{ points, closed }` (the source
result carries no color; the caller sets it afterwards). -/
def parsePathData (fuel : ℕ) (cmds : List PathCmd) (transform : Transform) :
    Option Path :=
  (runCmds fuel transform cmds ⟨[], false, 0, 0⟩).map fun st =>
    ⟨st.points, st.closed, none⟩

/-! ### G-code emission (`pathsToGCode`)

The source builds an array of strings.  The embedding builds the same
array as structured `GLine` values and renders them with `renderLine`:
literal pushes become `GLine.raw`/`GLine.comment`/`GLine.blank`, the two
computed motion templates `G0 X.. Y..` and `G1 X.. Y.. F..` become
`GLine.rapid`/`GLine.feed` carrying the exact coordinate values, with
`toFixed3` applied at render time exactly where the source applies
`.toFixed(3)`. -/

/-- Model of ECMAScript `Number.prototype.toFixed(3)`: a sign for
negative inputs, then the magnitude rounded to the nearest thousandth
(ties toward the larger count), rendered as integer part, a point, and
exactly three fractional digits. -/
def toFixed3 (q : ℚ) : String :=
  let n : ℕ := (Rat.floor (|q| * 1000 + 1 / 2)).toNat
  (if q < 0 then "-" else "") ++ natToStr (n / 1000) ++ "." ++
    String.mk [digitChar (n % 1000 / 100), digitChar (n % 1000 / 10 % 10),
      digitChar (n % 1000 % 10)]

/-- Decimal rendering of an integer. -/
def intToStr (z : ℤ) : String :=
  if z < 0 then "-" ++ natToStr z.natAbs else natToStr z.toNat

/-- Stand-in for JavaScript number-to-string coercion, used only for
the `F${feedRate}` field: integers render exactly as JavaScript does;
non-integer rationals render as exact fractions (exact double
formatting is outside the embedding). -/
def jsNumToString (q : ℚ) : String :=
  if q.den = 1 then intToStr q.num
  else intToStr q.num ++ "/" ++ natToStr q.den

/-- Number of characters after the last decimal point of a rendered
number. -/
def decimalDigits (s : String) : ℕ :=
  (s.data.reverse.takeWhile (fun c => c ≠ '.')).length

/-- One line of the emitted program, structured. -/
inductive GLine where
  | comment (text : String)
  | blank
  | raw (cmd : String)
  | rapid (x y : JsNum)
  | feed (x y f : JsNum)
deriving DecidableEq, Repr

/-- Rendering of a structured line to program text. -/
def renderLine : GLine → String
  | GLine.comment text => text
  | GLine.blank => ""
  | GLine.raw cmd => cmd
  | GLine.rapid x y => "G0 X" ++ toFixed3 x ++ " Y" ++ toFixed3 y
  | GLine.feed x y f =>
    "G1 X" ++ toFixed3 x ++ " Y" ++ toFixed3 y ++ " F" ++ jsNumToString f

/-- The `units` string of the settings (`'mm' | 'inch'`). -/
def unitsStr : Units → String
  | Units.mm => "mm"
  | Units.inch => "inch"

/-- The per-path body of the color-group loop in `pathsToGCode`
(`for (const path of groupPaths)`): zero-point paths are skipped
(`continue`), otherwise `globalPathIndex` is incremented and the block
rapid / pen down / feeds / pen up is pushed.  Returns the emitted lines
and the updated counter. -/
def emitGroupPaths (settings : Settings) (origin : Origin) :
    List Path → ℕ → List GLine × ℕ
  | [], globalPathIndex => ([], globalPathIndex)
  | path :: rest, globalPathIndex =>
    match path.points with
    | [] => emitGroupPaths settings origin rest globalPathIndex
    | start :: restPoints =>
      let idx := globalPathIndex + 1
      let block :=
        [GLine.blank,
         GLine.comment ("; Path " ++ natToStr idx),
         GLine.rapid ((start.x - origin.x) / settings.scale)
           ((origin.height - (start.y - origin.y)) / settings.scale),
         GLine.raw settings.penDownCmd] ++
        restPoints.map (fun point =>
          GLine.feed ((point.x - origin.x) / settings.scale)
            ((origin.height - (point.y - origin.y)) / settings.scale)
            settings.feedRate) ++
        [GLine.raw settings.penUpCmd]
      let next := emitGroupPaths settings origin rest idx
      (block ++ next.1, next.2)

/-- The color-group loop of `pathsToGCode`
(`for (let colorIndex = 0; ...)`) over the insertion-ordered buckets.
The pen-change block is pushed when
`colorIndex < colorKeys.length - 1`, i.e. exactly when further buckets
remain (`rest` non-empty). -/
def emitColorGroups (settings : Settings) (origin : Origin) :
    List (String × List Path) → ℕ → List GLine
  | [], _ => []
  | (colorKey, groupPaths) :: rest, globalPathIndex =>
    let header :=
      [GLine.blank,
       GLine.comment "; ========================================",
       GLine.comment ("; Color: " ++ colorKey ++ " (" ++
         natToStr groupPaths.length ++ " path" ++
         (if groupPaths.length ≠ 1 then "s" else "") ++ ")"),
       GLine.comment "; ========================================"]
    let body := emitGroupPaths settings origin groupPaths globalPathIndex
    let penChange :=
      if rest.isEmpty then []
      else
        [GLine.blank,
         GLine.comment "; Return to origin for pen change",
         GLine.raw settings.penUpCmd,
         GLine.raw "G0 X0 Y0",
         GLine.raw "M0 ; Pause - change to next pen, then resume"]
    header ++ body.1 ++ penChange ++ emitColorGroups settings origin rest body.2

/-- `pathsToGCode` from the source, producing structured lines in push
order: header comments and directives, the color-group loop, then the
footer. -/
def pathsToGCodeLines (paths : List Path) (settings : Settings) (origin : Origin) :
    List GLine :=
  let colorGroups := groupPathsByColor paths
  let colorKeys := colorGroups.map Prod.fst
  [GLine.comment "; Generated by Figma Vector to G-Code",
   GLine.comment ("; Units: " ++ unitsStr settings.units),
   GLine.comment ("; Paths: " ++ natToStr paths.length),
   GLine.comment ("; Color groups: " ++ natToStr colorKeys.length),
   GLine.comment ("; Origin: " ++
     if origin.frame then "existing frame" else "auto-generated frame"),
   GLine.blank,
   GLine.raw (if settings.units = Units.mm then "G21" else "G20"),
   GLine.raw "G90",
   GLine.raw "G17",
   GLine.blank,
   GLine.raw settings.penUpCmd] ++
  emitColorGroups settings origin colorGroups 0 ++
  [GLine.blank,
   GLine.comment "; End",
   GLine.raw "G0 X0 Y0",
   GLine.raw "M2"]

/-- `pathsToGCode` rendered to the final program text
(`lines.join('\n')`). -/
def pathsToGCode (paths : List Path) (settings : Settings) (origin : Origin) :
    String :=
  String.intercalate "\n" ((pathsToGCodeLines paths settings origin).map renderLine)

/-! ### Specification-side emitter shape (§4.6 of the spec) -/

/-- Specification-side output X transform:
`outX = (p.x - origin.x) / settings.scale`. -/
def outX (settings : Settings) (origin : Origin) (p : Point) : JsNum :=
  (p.x - origin.x) / settings.scale

/-- Specification-side output Y transform:
`outY = (origin.height - (p.y - origin.y)) / settings.scale`. -/
def outY (settings : Settings) (origin : Origin) (p : Point) : JsNum :=
  (origin.height - (p.y - origin.y)) / settings.scale

/-- Number of non-empty paths in a list (exactly the paths that advance
the emitted path counter). -/
def countNonempty (ps : List Path) : ℕ :=
  (ps.filter (fun p => !p.points.isEmpty)).length

/-- Specification-side block for one non-empty path numbered `idx`:
rapid to the first transformed point, pen down, one feed per remaining
point at the configured feed rate, pen up. -/
def specPathBlock (settings : Settings) (origin : Origin) (idx : ℕ)
    (start : Point) (restPoints : List Point) : List GLine :=
  [GLine.blank,
   GLine.comment ("; Path " ++ natToStr idx),
   GLine.rapid (outX settings origin start) (outY settings origin start),
   GLine.raw settings.penDownCmd] ++
  restPoints.map (fun p =>
    GLine.feed (outX settings origin p) (outY settings origin p)
      settings.feedRate) ++
  [GLine.raw settings.penUpCmd]

/-- Specification-side path blocks of one bucket: each path with at
least one point yields one block, numbered consecutively from
`base + 1`; a zero-point path yields nothing and does not advance the
number. -/
def specPathsBlocks (settings : Settings) (origin : Origin) :
    ℕ → List Path → List GLine
  | _, [] => []
  | base, p :: rest =>
    match p.points with
    | [] => specPathsBlocks settings origin base rest
    | start :: restPoints =>
      specPathBlock settings origin (base + 1) start restPoints ++
        specPathsBlocks settings origin (base + 1) rest

/-- Specification-side bucket header comments. -/
def specBucketHeader (colorKey : String) (groupPaths : List Path) : List GLine :=
  [GLine.blank,
   GLine.comment "; ========================================",
   GLine.comment ("; Color: " ++ colorKey ++ " (" ++
     natToStr groupPaths.length ++ " path" ++
     (if groupPaths.length ≠ 1 then "s" else "") ++ ")"),
   GLine.comment "; ========================================"]

/-- Specification-side pen-change block emitted between consecutive
buckets: pen up, rapid to the machine origin, program pause. -/
def specPenChange (settings : Settings) : List GLine :=
  [GLine.blank,
   GLine.comment "; Return to origin for pen change",
   GLine.raw settings.penUpCmd,
   GLine.raw "G0 X0 Y0",
   GLine.raw "M0 ; Pause - change to next pen, then resume"]

/-- Specification-side bucket sequence: each bucket's header and path
blocks, the pen-change block between consecutive buckets (never after
the last), the path numbering continuing across buckets by the number
of non-empty paths already emitted. -/
def specBuckets (settings : Settings) (origin : Origin) :
    List (String × List Path) → ℕ → List GLine
  | [], _ => []
  | [(colorKey, groupPaths)], base =>
    specBucketHeader colorKey groupPaths ++
      specPathsBlocks settings origin base groupPaths
  | (colorKey, groupPaths) :: b :: rest, base =>
    specBucketHeader colorKey groupPaths ++
      specPathsBlocks settings origin base groupPaths ++
      specPenChange settings ++
      specBuckets settings origin (b :: rest)
        (base + countNonempty groupPaths)

/-- Specification-side program header: the five comments, a blank, the
unit directive, absolute positioning, plane select, a blank, pen up. -/
def specHeaderLines (settings : Settings) (origin : Origin)
    (numPaths numBuckets : ℕ) : List GLine :=
  [GLine.comment "; Generated by Figma Vector to G-Code",
   GLine.comment ("; Units: " ++ unitsStr settings.units),
   GLine.comment ("; Paths: " ++ natToStr numPaths),
   GLine.comment ("; Color groups: " ++ natToStr numBuckets),
   GLine.comment ("; Origin: " ++
     if origin.frame then "existing frame" else "auto-generated frame"),
   GLine.blank,
   GLine.raw (if settings.units = Units.mm then "G21" else "G20"),
   GLine.raw "G90",
   GLine.raw "G17",
   GLine.blank,
   GLine.raw settings.penUpCmd]

/-- Specification-side program footer: rapid home, then program end. -/
def specFooterLines : List GLine :=
  [GLine.blank,
   GLine.comment "; End",
   GLine.raw "G0 X0 Y0",
   GLine.raw "M2"]

/-- The non-comment, non-blank lines of a structured program: the
motion/directive lines that claim C2 enumerates. -/
def motionOnly (lines : List GLine) : List GLine :=
  lines.filter (fun l =>
    match l with
    | GLine.comment _ => false
    | GLine.blank => false
    | _ => true)

/-- Motion/directive lines of one path block as claim C2 words it. -/
def c2ClaimedPathBlock (settings : Settings) (origin : Origin)
    (start : Point) (restPoints : List Point) : List GLine :=
  [GLine.rapid (outX settings origin start) (outY settings origin start),
   GLine.raw settings.penDownCmd] ++
  restPoints.map (fun p =>
    GLine.feed (outX settings origin p) (outY settings origin p)
      settings.feedRate) ++
  [GLine.raw settings.penUpCmd]

/-- Motion/directive lines of one bucket as claim C2 words it. -/
def c2ClaimedBucket (settings : Settings) (origin : Origin) :
    List Path → List GLine
  | [] => []
  | p :: rest =>
    match p.points with
    | [] => c2ClaimedBucket settings origin rest
    | start :: restPoints =>
      c2ClaimedPathBlock settings origin start restPoints ++
        c2ClaimedBucket settings origin rest

/-- Bucket sequence as claim C2 words it: between consecutive buckets
only a rapid move to the machine origin and the program-pause
directive. -/
def c2ClaimedBuckets (settings : Settings) (origin : Origin) :
    List (String × List Path) → List GLine
  | [] => []
  | [(_, groupPaths)] => c2ClaimedBucket settings origin groupPaths
  | (_, groupPaths) :: b :: rest =>
    c2ClaimedBucket settings origin groupPaths ++
      [GLine.raw "G0 X0 Y0",
       GLine.raw "M0 ; Pause - change to next pen, then resume"] ++
      c2ClaimedBuckets settings origin (b :: rest)

/-- The full motion/directive sequence exactly as claim C2 states it. -/
def c2ClaimedLines (paths : List Path) (settings : Settings) (origin : Origin) :
    List GLine :=
  [GLine.raw (if settings.units = Units.mm then "G21" else "G20"),
   GLine.raw "G90",
   GLine.raw "G17",
   GLine.raw settings.penUpCmd] ++
  c2ClaimedBuckets settings origin (groupPathsByColor paths) ++
  [GLine.raw "G0 X0 Y0",
   GLine.raw "M2"]

/-! ### Stroke font engine (`textNodeToPaths` and helpers)

The source reads the text node's characters, its post-auto-resize
width/height, its absolute transform and its resolved stroke color; the
embedding takes those as arguments.  Strings are embedded as character
lists.  The `HERSHEY_FONT` table is transcribed verbatim. -/

/-- `interface HersheyGlyph { width, strokes }` from the source. -/
structure HersheyGlyph where
  width : JsNum
  strokes : List (List JsNum)
deriving DecidableEq, Repr

/-- Part of the `HERSHEY_FONT` table (split for elaboration speed). -/
def hersheyFontA : List (Char × HersheyGlyph) := [
  (' ', ⟨16, []⟩),
  ('!', ⟨10, [[5,2,5,14], [5,19,4,20,5,21,6,20,5,19]]⟩),
  ('\x22', ⟨16, [[4,2,4,9], [12,2,12,9]]⟩),
  ('#', ⟨21, [[11,4,4,25], [17,4,10,25], [4,12,18,12], [3,18,17,18]]⟩),
  ('$', ⟨20, [[8,1,8,26], [12,1,12,26], [17,6,15,4,12,3,8,3,5,4,3,6,3,8,4,10,5,11,7,12,13,14,15,15,16,16,17,18,17,20,15,22,12,23,8,23,5,22,3,20]]⟩),
  ('%', ⟨24, [[21,2,3,23], [8,2,10,4,10,6,9,8,7,9,5,9,3,7,3,5,4,3,6,2,8,2,10,3,13,4,16,4,19,3,21,2], [17,16,15,17,14,19,14,21,16,23,18,23,20,22,21,20,21,18,19,16,17,16]]⟩),
  ('&', ⟨26, [[23,9,23,10,22,11,21,11,20,10,19,8,17,4,15,2,13,1,10,1,7,2,5,4,4,6,4,8,5,10,14,19,15,21,15,23,14,24,12,24,10,22,7,16,5,13,3,11,1,10,0,10]]⟩),
  ('\x27', ⟨10, [[5,3,4,2,5,1,6,2,6,4,5,6,4,7]]⟩),
  ('(', ⟨14, [[11,1,9,3,7,6,5,10,4,15,4,19,5,23,7,26,9,28,11,30]]⟩),
  (')', ⟨14, [[3,1,5,3,7,6,9,10,10,15,10,19,9,23,7,26,5,28,3,30]]⟩),
  ('*', ⟨16, [[8,7,8,19], [3,10,13,16], [13,10,3,16]]⟩),
  ('+', ⟨26, [[13,4,13,22], [4,13,22,13]]⟩),
  (',', ⟨10, [[6,18,5,19,4,18,5,17,6,18,6,20,5,22,4,23]]⟩),
  ('-', ⟨26, [[4,13,22,13]]⟩),
  ('.', ⟨10, [[5,18,4,19,5,20,6,19,5,18]]⟩),
  ('/', ⟨22, [[20,1,2,30]]⟩),
  ('0', ⟨20, [[9,2,6,3,4,6,3,10,3,15,4,19,6,22,9,23,11,23,14,22,16,19,17,15,17,10,16,6,14,3,11,2,9,2]]⟩),
  ('1', ⟨20, [[6,6,8,5,11,2,11,23]]⟩),
  ('2', ⟨20, [[4,7,4,6,5,4,6,3,8,2,12,2,14,3,15,4,16,6,16,8,15,10,13,13,3,23,17,23]]⟩),
  ('3', ⟨20, [[5,2,16,2,10,11,13,11,15,12,16,13,17,16,17,17,16,20,14,22,11,23,8,23,5,22,4,21,3,19]]⟩),
  ('4', ⟨20, [[13,2,3,15,18,15], [13,2,13,23]]⟩),
  ('5', ⟨20, [[15,2,5,2,4,11,5,10,8,9,11,9,14,10,16,12,17,15,17,17,16,20,14,22,11,23,8,23,5,22,4,21,3,19]]⟩),
  ('6', ⟨20, [[16,5,15,3,12,2,10,2,7,3,5,6,4,10,4,15,5,19,7,22,10,23,11,23,14,22,16,20,17,17,17,16,16,13,14,11,11,10,10,10,7,11,5,13,4,15]]⟩),
  ('7', ⟨20, [[17,2,7,23], [3,2,17,2]]⟩)]

/-- Part of the `HERSHEY_FONT` table (split for elaboration speed). -/
def hersheyFontB : List (Char × HersheyGlyph) := [
  ('8', ⟨20, [[8,2,5,3,4,5,4,7,5,9,7,11,11,13,14,15,16,17,17,19,17,21,16,22,14,23,6,23,4,22,3,21,3,19,4,17,6,15,9,13,13,11,15,9,16,7,16,5,15,3,12,2,8,2]]⟩),
  ('9', ⟨20, [[16,10,15,13,13,15,10,16,9,16,6,15,4,13,3,10,3,9,4,6,6,4,9,2,10,2,13,3,15,5,16,10,16,15,15,20,13,22,10,23,8,23,5,22,4,20]]⟩),
  (':', ⟨10, [[5,8,4,9,5,10,6,9,5,8], [5,18,4,19,5,20,6,19,5,18]]⟩),
  (';', ⟨10, [[5,8,4,9,5,10,6,9,5,8], [6,18,5,19,4,18,5,17,6,18,6,20,5,22,4,23]]⟩),
  ('<', ⟨24, [[20,4,4,13,20,22]]⟩),
  ('=', ⟨26, [[4,10,22,10], [4,16,22,16]]⟩),
  ('>', ⟨24, [[4,4,20,13,4,22]]⟩),
  ('?', ⟨18, [[3,6,3,5,4,3,5,2,8,1,11,1,14,2,15,3,16,5,16,7,15,9,14,10,9,12,9,15], [9,19,8,20,9,21,10,20,9,19]]⟩),
  ('@', ⟨27, [[18,9,17,7,15,6,12,6,10,7,9,8,8,11,8,14,9,16,11,17,14,17,16,16,17,14], [12,6,10,8,9,11,9,14,10,16,11,17], [18,6,17,14,17,16,19,17,21,17,23,15,24,12,24,10,23,7,22,5,20,3,18,2,15,1,12,1,9,2,7,3,5,5,4,7,3,10,3,13,4,16,5,18,7,20,9,21,12,22,15,22,18,21,20,20,21,19], [17,6,18,14,18,16,19,17]]⟩),
  ('A', ⟨18, [[9,2,1,23], [9,2,17,23], [4,16,14,16]]⟩),
  ('B', ⟨21, [[4,2,4,23], [4,2,13,2,16,3,17,4,18,6,18,8,17,10,16,11,13,12], [4,12,13,12,16,13,17,14,18,16,18,19,17,21,16,22,13,23,4,23]]⟩),
  ('C', ⟨21, [[18,7,17,4,15,2,12,1,9,1,6,2,4,4,3,7,3,18,4,21,6,23,9,24,12,24,15,23,17,21,18,18]]⟩),
  ('D', ⟨21, [[4,2,4,23], [4,2,11,2,14,3,16,5,17,7,18,10,18,15,17,18,16,20,14,22,11,23,4,23]]⟩),
  ('E', ⟨19, [[4,2,4,23], [4,2,17,2], [4,12,12,12], [4,23,17,23]]⟩),
  ('F', ⟨18, [[4,2,4,23], [4,2,17,2], [4,12,12,12]]⟩),
  ('G', ⟨21, [[18,7,17,4,15,2,12,1,9,1,6,2,4,4,3,7,3,18,4,21,6,23,9,24,12,24,15,23,17,21,18,18,18,12,12,12]]⟩),
  ('H', ⟨22, [[4,2,4,23], [18,2,18,23], [4,12,18,12]]⟩),
  ('I', ⟨8, [[4,2,4,23]]⟩),
  ('J', ⟨16, [[12,2,12,18,11,21,10,22,8,23,6,23,4,22,3,21,2,18,2,16]]⟩),
  ('K', ⟨21, [[4,2,4,23], [18,2,4,15], [9,10,18,23]]⟩),
  ('L', ⟨17, [[4,2,4,23], [4,23,16,23]]⟩),
  ('M', ⟨24, [[4,2,4,23], [4,2,12,23], [20,2,12,23], [20,2,20,23]]⟩),
  ('N', ⟨22, [[4,2,4,23], [4,2,18,23], [18,2,18,23]]⟩),
  ('O', ⟨22, [[9,1,6,2,4,4,3,7,3,18,4,21,6,23,9,24,13,24,16,23,18,21,19,18,19,7,18,4,16,2,13,1,9,1]]⟩)]

/-- Part of the `HERSHEY_FONT` table (split for elaboration speed). -/
def hersheyFontC : List (Char × HersheyGlyph) := [
  ('P', ⟨21, [[4,2,4,23], [4,2,13,2,16,3,17,4,18,6,18,9,17,11,16,12,13,13,4,13]]⟩),
  ('Q', ⟨22, [[9,1,6,2,4,4,3,7,3,18,4,21,6,23,9,24,13,24,16,23,18,21,19,18,19,7,18,4,16,2,13,1,9,1], [13,19,18,24]]⟩),
  ('R', ⟨21, [[4,2,4,23], [4,2,13,2,16,3,17,4,18,6,18,8,17,10,16,11,13,12,4,12], [11,12,18,23]]⟩),
  ('S', ⟨20, [[17,5,15,3,12,2,8,2,5,3,3,5,3,7,4,9,5,10,7,11,13,13,15,14,16,15,17,17,17,20,15,22,12,23,8,23,5,22,3,20]]⟩),
  ('T', ⟨16, [[8,2,8,23], [1,2,15,2]]⟩),
  ('U', ⟨22, [[4,2,4,17,5,20,7,22,10,23,12,23,15,22,17,20,18,17,18,2]]⟩),
  ('V', ⟨18, [[1,2,9,23], [17,2,9,23]]⟩),
  ('W', ⟨24, [[2,2,6,23], [10,2,6,23], [10,2,14,23], [18,2,14,23]]⟩),
  ('X', ⟨20, [[3,2,17,23], [17,2,3,23]]⟩),
  ('Y', ⟨18, [[1,2,9,13,9,23], [17,2,9,13]]⟩),
  ('Z', ⟨20, [[17,2,3,23], [3,2,17,2], [3,23,17,23]]⟩),
  ('[', ⟨14, [[4,1,4,30], [5,1,5,30], [4,1,11,1], [4,30,11,30]]⟩),
  ('\x5c', ⟨14, [[0,1,14,30]]⟩),
  (']', ⟨14, [[9,1,9,30], [10,1,10,30], [3,1,10,1], [3,30,10,30]]⟩),
  ('^', ⟨16, [[8,4,0,18], [8,4,16,18]]⟩),
  ('_', ⟨18, [[0,30,18,30]]⟩),
  ('\x60', ⟨10, [[6,1,5,2,4,1,5,0,6,1,6,3,5,5,4,6]]⟩),
  ('a', ⟨19, [[15,8,15,23], [15,11,13,9,11,8,8,8,5,9,3,11,2,14,2,17,3,20,5,22,8,23,11,23,13,22,15,20]]⟩),
  ('b', ⟨19, [[4,2,4,23], [4,11,6,9,8,8,11,8,14,9,16,11,17,14,17,17,16,20,14,22,11,23,8,23,6,22,4,20]]⟩),
  ('c', ⟨18, [[17,11,15,9,13,8,10,8,7,9,5,11,4,14,4,17,5,20,7,22,10,23,13,23,15,22,17,20]]⟩),
  ('d', ⟨19, [[15,2,15,23], [15,11,13,9,11,8,8,8,5,9,3,11,2,14,2,17,3,20,5,22,8,23,11,23,13,22,15,20]]⟩),
  ('e', ⟨18, [[4,15,17,15,17,13,16,10,15,9,13,8,10,8,7,9,5,11,4,14,4,17,5,20,7,22,10,23,13,23,15,22,17,20]]⟩),
  ('f', ⟨12, [[10,2,8,2,6,3,5,6,5,23], [2,9,9,9]]⟩),
  ('g', ⟨19, [[15,8,15,27,14,30,13,31,10,32,8,32], [15,11,13,9,11,8,8,8,5,9,3,11,2,14,2,17,3,20,5,22,8,23,11,23,13,22,15,20]]⟩)]

/-- Part of the `HERSHEY_FONT` table (split for elaboration speed). -/
def hersheyFontD : List (Char × HersheyGlyph) := [
  ('h', ⟨19, [[4,2,4,23], [4,12,7,9,9,8,12,8,15,9,16,12,16,23]]⟩),
  ('i', ⟨8, [[3,2,4,3,5,2,4,1,3,2], [4,8,4,23]]⟩),
  ('j', ⟨10, [[5,2,6,3,7,2,6,1,5,2], [6,8,6,27,5,30,3,31,1,31]]⟩),
  ('k', ⟨17, [[4,2,4,23], [14,8,4,18], [8,14,15,23]]⟩),
  ('l', ⟨8, [[4,2,4,23]]⟩),
  ('m', ⟨30, [[4,8,4,23], [4,12,7,9,9,8,12,8,15,9,16,12,16,23], [16,12,19,9,21,8,24,8,27,9,28,12,28,23]]⟩),
  ('n', ⟨19, [[4,8,4,23], [4,12,7,9,9,8,12,8,15,9,16,12,16,23]]⟩),
  ('o', ⟨19, [[10,8,7,9,5,11,4,14,4,17,5,20,7,22,10,23,12,23,15,22,17,20,18,17,18,14,17,11,15,9,12,8,10,8]]⟩),
  ('p', ⟨19, [[4,8,4,32], [4,11,6,9,8,8,11,8,14,9,16,11,17,14,17,17,16,20,14,22,11,23,8,23,6,22,4,20]]⟩),
  ('q', ⟨19, [[15,8,15,32], [15,11,13,9,11,8,8,8,5,9,3,11,2,14,2,17,3,20,5,22,8,23,11,23,13,22,15,20]]⟩),
  ('r', ⟨13, [[4,8,4,23], [4,14,5,11,7,9,9,8,12,8]]⟩),
  ('s', ⟨17, [[15,10,14,9,11,8,7,8,4,9,3,11,4,13,7,14,11,15,14,16,15,18,15,20,14,22,11,23,7,23,4,22,3,21]]⟩),
  ('t', ⟨12, [[5,2,5,19,6,22,8,23,10,23], [2,8,9,8]]⟩),
  ('u', ⟨19, [[4,8,4,19,5,22,8,23,11,23,13,22,15,19], [15,8,15,23]]⟩),
  ('v', ⟨16, [[2,8,8,23], [14,8,8,23]]⟩),
  ('w', ⟨22, [[3,8,6,23], [9,8,6,23], [9,8,12,23], [15,8,12,23]]⟩),
  ('x', ⟨17, [[3,8,14,23], [14,8,3,23]]⟩),
  ('y', ⟨16, [[2,8,8,23], [14,8,8,23,6,27,4,30,2,31,1,31]]⟩),
  ('z', ⟨17, [[14,8,3,23], [3,8,14,8], [3,23,14,23]]⟩),
  ('\x7b', ⟨14, [[9,1,7,2,6,3,5,5,5,7,6,9,7,10,8,12,8,14,6,16], [7,2,6,4,6,6,7,8,8,9,9,11,9,13,8,15,4,17,8,19,9,21,9,23,8,25,7,26,6,28,6,30,7,32], [6,18,8,20,8,22,7,24,6,25,5,27,5,29,6,31,7,32,9,33]]⟩),
  ('|', ⟨8, [[4,1,4,33]]⟩),
  ('\x7d', ⟨14, [[5,1,7,2,8,3,9,5,9,7,8,9,7,10,6,12,6,14,8,16], [7,2,8,4,8,6,7,8,6,9,5,11,5,13,6,15,10,17,6,19,5,21,5,23,6,25,7,26,8,28,8,30,7,32], [8,18,6,20,6,22,7,24,8,25,9,27,9,29,8,31,7,32,5,33]]⟩),
  ('~', ⟨24, [[3,16,3,14,4,11,6,10,8,10,10,11,14,14,16,15,18,15,20,14,21,12], [21,16,21,12,20,9,18,8,16,8,14,9,10,12,8,13,6,13,4,12,3,10]]⟩)]

/-- The `HERSHEY_FONT` glyph table from the source, as an ordered
association list keyed by character (transcribed verbatim; split
into four chunks only to keep elaboration fast). -/
def hersheyFont : List (Char × HersheyGlyph) :=
  hersheyFontA ++ hersheyFontB ++ hersheyFontC ++ hersheyFontD

/-- Lookup `HERSHEY_FONT[char]`. -/
def hersheyLookup (c : Char) : Option HersheyGlyph :=
  hersheyFont.lookup c

/-- `text.split('\n')` on a character list; splitting the empty string
yields one empty line, as in JavaScript. -/
def splitLines : List Char → List (List Char)
  | [] => [[]]
  | c :: rest =>
    if c = '\n' then [] :: splitLines rest
    else
      match splitLines rest with
      | [] => [[c]]
      | l :: r => (c :: l) :: r

/-- The default advance width `HERSHEY_FONT[' ']?.width || 16`
(JavaScript `||` falls back when the value is missing or zero). -/
def defaultAdvance : JsNum :=
  match (hersheyLookup ' ').map HersheyGlyph.width with
  | none => 16
  | some w => if w = 0 then 16 else w

/-- `measureHersheyText` from the source: per explicit line, sum the
advance widths (missing glyphs use the default); overall width is the
maximum line width, overall height is `lines.length * 25`. -/
def measureHersheyText (text : List Char) : JsNum × JsNum :=
  let lines := splitLines text
  let maxWidth := lines.foldl
    (fun maxW line =>
      let lineWidth := line.foldl
        (fun w c =>
          w + match hersheyLookup c with
              | some glyph => glyph.width
              | none => defaultAdvance) 0
      max maxW lineWidth) 0
  (maxWidth, (lines.length : JsNum) * 25)

/-- The coordinate pairs `(stroke[i], stroke[i+1])` read by the
`for (let i = 0; i < stroke.length; i += 2)` loop.  (The source table
contains only even-length strokes, so the odd-tail case never arises
for table data.) -/
def strokePairs : List JsNum → List (JsNum × JsNum)
  | sx :: sy :: rest => (sx, sy) :: strokePairs rest
  | _ => []

/-- The per-stroke loop of `textNodeToPaths` for one glyph: strokes
with fewer than 2 coordinate pairs are skipped; each remaining stroke
becomes one open path of transformed points. -/
def glyphStrokePaths (scaleX scaleY : JsNum) (transform : Transform)
    (color : Option StrokeColor) (cursorX lineY : JsNum) :
    List (List JsNum) → List Path
  | [] => []
  | stroke :: rest =>
    if stroke.length < 4 then
      glyphStrokePaths scaleX scaleY transform color cursorX lineY rest
    else
      let points := (strokePairs stroke).map fun sp =>
        transformPoint ((cursorX + sp.1) * scaleX) ((lineY + sp.2) * scaleY)
          transform
      (if points.length ≥ 2 then
        [({ points := points, closed := false, color := color } : Path)]
       else []) ++
        glyphStrokePaths scaleX scaleY transform color cursorX lineY rest

/-- The per-character loop of `textNodeToPaths` over one line: missing
glyphs advance the cursor by the default width and emit nothing; a
found glyph emits its stroke paths, then the cursor advances by its
width. -/
def lineCharPaths (scaleX scaleY : JsNum) (transform : Transform)
    (color : Option StrokeColor) (lineY : JsNum) :
    List Char → JsNum → List Path
  | [], _ => []
  | c :: rest, cursorX =>
    match hersheyLookup c with
    | none =>
      lineCharPaths scaleX scaleY transform color lineY rest
        (cursorX + defaultAdvance)
    | some glyph =>
      glyphStrokePaths scaleX scaleY transform color cursorX lineY
          glyph.strokes ++
        lineCharPaths scaleX scaleY transform color lineY rest
          (cursorX + glyph.width)

/-- The per-line loop of `textNodeToPaths`: each line starts at
`cursorX = 0` and vertical offset `lineIndex * 25`. -/
def linesPaths (scaleX scaleY : JsNum) (transform : Transform)
    (color : Option StrokeColor) : List (List Char) → ℕ → List Path
  | [], _ => []
  | line :: rest, lineIndex =>
    lineCharPaths scaleX scaleY transform color
        ((lineIndex : JsNum) * 25) line 0 ++
      linesPaths scaleX scaleY transform color rest (lineIndex + 1)

/-- `textNodeToPaths` from the source: empty text yields no paths; a
zero Hershey design width or height yields no paths; otherwise the
glyph strokes are scaled by `targetWidth / designWidth` and
`targetHeight / designHeight` and transformed. -/
def textNodeToPaths (text : List Char) (targetWidth targetHeight : JsNum)
    (transform : Transform) (color : Option StrokeColor) : List Path :=
  if text = [] then []
  else
    let hersheySize := measureHersheyText text
    if hersheySize.1 = 0 ∨ hersheySize.2 = 0 then []
    else
      let scaleX := targetWidth / hersheySize.1
      let scaleY := targetHeight / hersheySize.2
      linesPaths scaleX scaleY transform color (splitLines text) 0

/-- A red stroke used in concrete examples ("color A"). -/
def exRed : StrokeColor := ⟨1, 0, 0, 1⟩

/-- A blue stroke used in concrete examples ("color B"). -/
def exBlue : StrokeColor := ⟨0, 0, 1, 1⟩

/-- Settings used in concrete examples: millimetres, scale 1, feed rate
1000. -/
def exSettings : Settings := ⟨Units.mm, 1, 1000, "M5", "M3 S30"⟩

/-- Origin used in concrete examples: top-left (0,0), height 10,
existing frame. -/
def exOrigin : Origin := ⟨0, 0, 10, true⟩

/-- A two-point red path used in concrete examples. -/
def exPath1 : Path := ⟨[⟨1, 1⟩, ⟨2, 1⟩], false, some exRed⟩

/-- A zero-point blue path used in concrete examples. -/
def exPathEmptyBlue : Path := ⟨[], false, some exBlue⟩

/-- Five paths carrying the colors `[A, A, B, A, B]`, in that order. -/
def exPaths5 : List Path :=
  [⟨[⟨0, 0⟩], false, some exRed⟩,
   ⟨[⟨1, 0⟩], false, some exRed⟩,
   ⟨[⟨2, 0⟩], false, some exBlue⟩,
   ⟨[⟨3, 0⟩], false, some exRed⟩,
   ⟨[⟨4, 0⟩], false, some exBlue⟩]

/-! ### Lemmas about the grouping -/

lemma mem_foldl_firstOccurrences (ks : List String) :
    ∀ (acc : List String) (a : String),
      a ∈ ks.foldl (fun acc k => if k ∈ acc then acc else acc ++ [k]) acc ↔
        a ∈ acc ∨ a ∈ ks := by
  induction ks with
  | nil => simp
  | cons k ks ih =>
    intro acc a
    simp only [List.foldl_cons, ih, List.mem_cons]
    by_cases hk : k ∈ acc
    · simp only [hk, if_true]
      constructor
      · rintro (h | h)
        · exact Or.inl h
        · exact Or.inr (Or.inr h)
      · rintro (h | h | h)
        · exact Or.inl h
        · exact Or.inl (h ▸ hk)
        · exact Or.inr h
    · simp only [hk, if_false, List.mem_append, List.mem_singleton]
      tauto

lemma mem_firstOccurrences (ks : List String) (a : String) :
    a ∈ firstOccurrences ks ↔ a ∈ ks := by
  simp [firstOccurrences, mem_foldl_firstOccurrences]

lemma nodup_foldl_firstOccurrences (ks : List String) :
    ∀ acc : List String, acc.Nodup →
      (ks.foldl (fun acc k => if k ∈ acc then acc else acc ++ [k]) acc).Nodup := by
  induction ks with
  | nil => simp
  | cons k ks ih =>
    intro acc hacc
    simp only [List.foldl_cons]
    by_cases hk : k ∈ acc
    · simpa [hk] using ih acc hacc
    · simp only [hk, if_false]
      exact ih _ (by simp [List.nodup_append, hacc, hk])

lemma nodup_firstOccurrences (ks : List String) : (firstOccurrences ks).Nodup :=
  nodup_foldl_firstOccurrences ks [] List.nodup_nil

lemma firstOccurrences_append_singleton (ks : List String) (k : String) :
    firstOccurrences (ks ++ [k]) =
      if k ∈ ks then firstOccurrences ks else firstOccurrences ks ++ [k] := by
  have hstep : firstOccurrences (ks ++ [k]) =
      if k ∈ firstOccurrences ks then firstOccurrences ks
      else firstOccurrences ks ++ [k] := by
    simp [firstOccurrences, List.foldl_append]
  by_cases hk : k ∈ ks
  · rw [hstep, if_pos ((mem_firstOccurrences ks k).mpr hk), if_pos hk]
  · rw [hstep, if_neg (fun hc => hk ((mem_firstOccurrences ks k).mp hc)), if_neg hk]

lemma insertGroup_of_not_mem (ks : List String) (f : String → List Path)
    (key : String) (p : Path) (h : key ∉ ks) :
    insertGroup (ks.map fun k => (k, f k)) key p =
      (ks.map fun k => (k, f k)) ++ [(key, [p])] := by
  induction ks with
  | nil => rfl
  | cons k ks ih =>
    have hk : k ≠ key := fun hkk => h (hkk ▸ List.mem_cons_self k ks)
    have h' : key ∉ ks := fun hm => h (List.mem_cons_of_mem _ hm)
    simp [insertGroup, hk, ih h']

lemma insertGroup_of_mem (ks : List String) (f : String → List Path)
    (key : String) (p : Path) (hnd : ks.Nodup) (h : key ∈ ks) :
    insertGroup (ks.map fun k => (k, f k)) key p =
      ks.map fun k => (k, if k = key then f k ++ [p] else f k) := by
  induction ks with
  | nil => cases h
  | cons k ks ih =>
    rcases List.mem_cons.mp h with hk | hk
    · subst hk
      have hrest : List.map (fun k => (k, if k = key then f k ++ [p] else f k)) ks =
          List.map (fun k => (k, f k)) ks :=
        List.map_congr_left fun k' hk' => by
          have hne : k' ≠ key := fun he => (List.nodup_cons.mp hnd).1 (he ▸ hk')
          simp [hne]
      simp [insertGroup, hrest]
    · have hne : k ≠ key := fun he => (List.nodup_cons.mp hnd).1 (he ▸ hk)
      simp only [List.map_cons, insertGroup, if_neg hne]
      rw [ih (List.nodup_cons.mp hnd).2 hk]

lemma filter_key_append_singleton (paths : List Path) (p : Path) (k : String) :
    (paths ++ [p]).filter (fun q => keyOf q = k) =
      paths.filter (fun q => keyOf q = k) ++ if keyOf p = k then [p] else [] := by
  by_cases h : keyOf p = k <;> simp [List.filter_append, h]

/-- The source's insertion-ordered grouping coincides with the
specification-side grouping of §4.5. -/
lemma group_eq_specGroup (paths : List Path) :
    groupPathsByColor paths = specGroup paths := by
  induction paths using List.reverseRecOn with
  | nil => rfl
  | append_singleton paths p ih =>
    have hfold : groupPathsByColor (paths ++ [p]) =
        insertGroup (groupPathsByColor paths) (keyOf p) p := by
      simp [groupPathsByColor, List.foldl_append]
    have hkeys : (paths ++ [p]).map keyOf = paths.map keyOf ++ [keyOf p] := by simp
    rw [hfold, ih]
    unfold specGroup
    rw [hkeys, firstOccurrences_append_singleton]
    by_cases hmem : keyOf p ∈ paths.map keyOf
    · rw [if_pos hmem,
        insertGroup_of_mem _ _ _ _ (nodup_firstOccurrences _)
          ((mem_firstOccurrences _ _).mpr hmem)]
      refine List.map_congr_left fun k hk => ?_
      rw [filter_key_append_singleton]
      by_cases hkp : k = keyOf p
      · subst hkp
        simp
      · have hpk : ¬ (keyOf p = k) := fun he => hkp he.symm
        simp [hkp, hpk]
    · rw [if_neg hmem,
        insertGroup_of_not_mem _ _ _ _
          (fun hc => hmem ((mem_firstOccurrences _ _).mp hc)),
        List.map_append]
      congr 1
      · refine List.map_congr_left fun k hk => ?_
        have hkmem : k ∈ paths.map keyOf := (mem_firstOccurrences _ _).mp hk
        have hpk : ¬ (keyOf p = k) := fun he => hmem (he ▸ hkmem)
        rw [filter_key_append_singleton, if_neg hpk, List.append_nil]
      · have hfe : paths.filter (fun q => keyOf q = keyOf p) = [] :=
          List.filter_eq_nil_iff.mpr fun q hq => by
            simp only [decide_eq_true_eq]
            exact fun he => hmem (he ▸ List.mem_map_of_mem keyOf hq)
        simp [filter_key_append_singleton, hfe]

lemma colorToHex_head (c : StrokeColor) : (colorToHex c).data.head? = some '#' := by
  simp [colorToHex, strUpper, String.data_append]

lemma colorToHex_ne_default (c : StrokeColor) : colorToHex c ≠ "DEFAULT" := by
  intro h
  have h2 := congrArg (fun s => s.data.head?) h
  simp only [colorToHex_head] at h2
  simp at h2

lemma lookup_map_keys (ks : List String) (f : String → List Path) (key : String) :
    List.lookup key (ks.map fun k => (k, f k)) =
      if key ∈ ks then some (f key) else none := by
  induction ks with
  | nil => simp
  | cons k ks ih =>
    by_cases hk : key = k
    · subst hk
      simp [List.lookup]
    · simp only [List.map_cons, List.lookup, List.mem_cons]
      rw [show (key == k) = false from beq_eq_false_iff_ne.mpr hk]
      simp only [ih]
      by_cases hm : key ∈ ks <;> simp [hm, hk]

lemma filter_default_eq (paths : List Path) :
    paths.filter (fun p => keyOf p = "DEFAULT") =
      paths.filter (fun p => p.color.isNone) := by
  apply List.filter_congr
  intro p _
  cases hc : p.color <;> simp [keyOf, hc, colorToHex_ne_default]

lemma flatten_insertGroup (gs : List (String × List Path)) (key : String) (p : Path) :
    ((insertGroup gs key p).map Prod.snd).flatten.Perm
      ((gs.map Prod.snd).flatten ++ [p]) := by
  induction gs with
  | nil => simp [insertGroup]
  | cons g gs ih =>
    obtain ⟨k, ps⟩ := g
    by_cases hk : k = key
    · simp only [insertGroup, if_pos hk, List.map_cons, List.flatten_cons]
      have h1 : (ps ++ [p]) ++ (gs.map Prod.snd).flatten =
          ps ++ ([p] ++ (gs.map Prod.snd).flatten) := by rw [List.append_assoc]
      have h2 : (ps ++ (gs.map Prod.snd).flatten) ++ [p] =
          ps ++ ((gs.map Prod.snd).flatten ++ [p]) := by rw [List.append_assoc]
      rw [h1, h2]
      exact List.Perm.append_left ps List.perm_append_comm
    · simp only [insertGroup, if_neg hk, List.map_cons, List.flatten_cons]
      have h2 : (ps ++ (gs.map Prod.snd).flatten) ++ [p] =
          ps ++ ((gs.map Prod.snd).flatten ++ [p]) := by rw [List.append_assoc]
      rw [h2]
      exact List.Perm.append_left ps ih

lemma flatten_group_aux (paths : List Path) :
    ∀ gs : List (String × List Path),
      ((paths.foldl (fun gs p => insertGroup gs (keyOf p) p) gs).map Prod.snd).flatten.Perm
        ((gs.map Prod.snd).flatten ++ paths) := by
  induction paths with
  | nil => intro gs; simp
  | cons p rest ih =>
    intro gs
    simp only [List.foldl_cons]
    refine ((ih _).trans
      (List.Perm.append_right rest (flatten_insertGroup gs (keyOf p) p))).trans ?_
    have : ((gs.map Prod.snd).flatten ++ [p]) ++ rest =
        (gs.map Prod.snd).flatten ++ (p :: rest) := by simp
    rw [this]

lemma flatten_group_perm (paths : List Path) :
    ((groupPathsByColor paths).map Prod.snd).flatten.Perm paths := by
  simpa using flatten_group_aux paths []

lemma specGroup_keys (paths : List Path) :
    (specGroup paths).map Prod.fst = firstOccurrences (paths.map keyOf) := by
  unfold specGroup
  rw [List.map_map]
  exact List.map_id' _

/-! ### Lemmas about the bezier flattener -/

lemma pointToLineDistSq_nonneg (p a b : Point) : 0 ≤ pointToLineDistSq p a b := by
  simp only [pointToLineDistSq]
  split
  · positivity
  · apply div_nonneg (sq_nonneg _)
    nlinarith [mul_self_nonneg (b.x - a.x), mul_self_nonneg (b.y - a.y)]

/-- The boolean flatness test agrees with the source's real-valued
comparison `max d1 d2 <= tolerance`, where `d1`, `d2` are the real
control-point distances computed with `Math.sqrt`. -/
lemma flatnessLE_iff_sqrt (p0 p1 p2 p3 : Point) (tol : ℚ) :
    flatnessLE p0 p1 p2 p3 tol = true ↔
      max (Real.sqrt ((pointToLineDistSq p1 p0 p3 : ℚ) : ℝ))
          (Real.sqrt ((pointToLineDistSq p2 p0 p3 : ℚ) : ℝ)) ≤ ((tol : ℚ) : ℝ) := by
  rw [max_le_iff, Real.sqrt_le_iff, Real.sqrt_le_iff]
  simp only [flatnessLE, decide_eq_true_eq]
  constructor
  · rintro ⟨h0, ha, hb⟩
    exact ⟨⟨by exact_mod_cast h0, by exact_mod_cast ha⟩,
      ⟨by exact_mod_cast h0, by exact_mod_cast hb⟩⟩
  · rintro ⟨⟨h0, ha⟩, ⟨_, hb⟩⟩
    exact ⟨by exact_mod_cast h0, by exact_mod_cast ha, by exact_mod_cast hb⟩

lemma flatnessLE_mono {p0 p1 p2 p3 : Point} {t1 t2 : ℚ} (h12 : t1 ≤ t2)
    (h : flatnessLE p0 p1 p2 p3 t1 = true) : flatnessLE p0 p1 p2 p3 t2 = true := by
  simp only [flatnessLE, decide_eq_true_eq] at h ⊢
  obtain ⟨h0, ha, hb⟩ := h
  have hsq : t1 ^ 2 ≤ t2 ^ 2 := by nlinarith
  exact ⟨le_trans h0 h12, le_trans ha hsq, le_trans hb hsq⟩

lemma linearize_some_ne_nil :
    ∀ (fuel : ℕ) (p0 p1 p2 p3 : Point) (tol : ℚ) (l : List Point),
      linearizeCubicBezier fuel p0 p1 p2 p3 tol = some l → l ≠ [] := by
  intro fuel
  induction fuel with
  | zero =>
    intro p0 p1 p2 p3 tol l h
    simp [linearizeCubicBezier] at h
  | succ fuel ih =>
    intro p0 p1 p2 p3 tol l h
    simp only [linearizeCubicBezier] at h
    by_cases hf : flatnessLE p0 p1 p2 p3 tol = true
    · rw [if_pos hf] at h
      cases h
      simp
    · rw [if_neg hf] at h
      split at h
      next la lb hla hlb =>
        cases h
        intro hnil
        rcases List.append_eq_nil.mp hnil with ⟨h1, _⟩
        exact ih _ _ _ _ _ _ hla h1
      next => exact absurd h (by simp)

lemma linearize_some_getLast :
    ∀ (fuel : ℕ) (p0 p1 p2 p3 : Point) (tol : ℚ) (l : List Point),
      linearizeCubicBezier fuel p0 p1 p2 p3 tol = some l → l.getLast? = some p3 := by
  intro fuel
  induction fuel with
  | zero =>
    intro p0 p1 p2 p3 tol l h
    simp [linearizeCubicBezier] at h
  | succ fuel ih =>
    intro p0 p1 p2 p3 tol l h
    simp only [linearizeCubicBezier] at h
    by_cases hf : flatnessLE p0 p1 p2 p3 tol = true
    · rw [if_pos hf] at h
      cases h
      rfl
    · rw [if_neg hf] at h
      split at h
      next la lb hla hlb =>
        cases h
        rw [List.getLast?_append, ih _ _ _ _ _ _ hlb]
        rfl
      next => exact absurd h (by simp)

lemma linearize_length_mono :
    ∀ (f2 f1 : ℕ) (p0 p1 p2 p3 : Point) (t1 t2 : ℚ) (l1 l2 : List Point),
      t1 ≤ t2 →
      linearizeCubicBezier f1 p0 p1 p2 p3 t1 = some l1 →
      linearizeCubicBezier f2 p0 p1 p2 p3 t2 = some l2 →
      l2.length ≤ l1.length := by
  intro f2
  induction f2 with
  | zero =>
    intro f1 p0 p1 p2 p3 t1 t2 l1 l2 _ _ h2
    simp [linearizeCubicBezier] at h2
  | succ f2 ih =>
    intro f1 p0 p1 p2 p3 t1 t2 l1 l2 h12 h1 h2
    simp only [linearizeCubicBezier] at h2
    by_cases hf2 : flatnessLE p0 p1 p2 p3 t2 = true
    · rw [if_pos hf2] at h2
      cases h2
      have hne := linearize_some_ne_nil f1 p0 p1 p2 p3 t1 l1 h1
      simpa using List.length_pos.mpr hne
    · rw [if_neg hf2] at h2
      have hf1 : ¬ flatnessLE p0 p1 p2 p3 t1 = true := fun hc =>
        hf2 (flatnessLE_mono h12 hc)
      cases f1 with
      | zero => simp [linearizeCubicBezier] at h1
      | succ f1 =>
        simp only [linearizeCubicBezier] at h1
        rw [if_neg hf1] at h1
        split at h1
        next la lb hla hlb =>
          cases h1
          split at h2
          next lc ld hlc hld =>
            cases h2
            have m1 := ih f1 _ _ _ _ t1 t2 la lc h12 hla hlc
            have m2 := ih f1 _ _ _ _ t1 t2 lb ld h12 hlb hld
            simp only [List.length_append]
            omega
          next => exact absurd h2 (by simp)
        next => exact absurd h1 (by simp)

/-! ### Claim theorems for the bezier flattener -/

/-- Claim C6: for every cubic bezier and tolerances `t1 <= t2` (with
`t1` positive), flattening with the smaller tolerance `t1` returns at
least as many points as flattening with `t2` (whenever both runs
return). -/
theorem claim_C6 (p0 p1 p2 p3 : Point) (t1 t2 : ℚ) (f1 f2 : ℕ)
    (_hpos : 0 < t1) (h12 : t1 ≤ t2)
    (h1 : (linearizeCubicBezier f1 p0 p1 p2 p3 t1).isSome)
    (h2 : (linearizeCubicBezier f2 p0 p1 p2 p3 t2).isSome) :
    ((linearizeCubicBezier f2 p0 p1 p2 p3 t2).getD []).length ≤
      ((linearizeCubicBezier f1 p0 p1 p2 p3 t1).getD []).length := by
  obtain ⟨l1, hl1⟩ := Option.isSome_iff_exists.mp h1
  obtain ⟨l2, hl2⟩ := Option.isSome_iff_exists.mp h2
  rw [hl1, hl2]
  exact linearize_length_mono f2 f1 p0 p1 p2 p3 t1 t2 l1 l2 h12 hl1 hl2

/-- Witness for C6 at a concrete curve: tolerance 1/10 versus 3. -/
theorem claim_C6_witness :
    ((linearizeCubicBezier 8 ⟨0, 0⟩ ⟨0, 2⟩ ⟨1, 2⟩ ⟨1, 0⟩ 3).getD []).length ≤
      ((linearizeCubicBezier 8 ⟨0, 0⟩ ⟨0, 2⟩ ⟨1, 2⟩ ⟨1, 0⟩ (1 / 10)).getD []).length :=
  claim_C6 ⟨0, 0⟩ ⟨0, 2⟩ ⟨1, 2⟩ ⟨1, 0⟩ (1 / 10) 3 8 8
    (by norm_num) (by norm_num) (by decide) (by decide)

/-- Claim C7: a cubic whose four control points coincide flattens to
exactly one output point (its endpoint); one level of fuel suffices, so
no recursive subdivision happens and no recursion overflow can occur. -/
theorem claim_C7 (p : Point) (fuel : ℕ) :
    linearizeCubicBezier (fuel + 1) p p p p BEZIER_TOLERANCE = some [p] := by
  have hflat : flatnessLE p p p p BEZIER_TOLERANCE = true := by
    simp only [flatnessLE, pointToLineDistSq, BEZIER_TOLERANCE, decide_eq_true_eq]
    norm_num
  simp only [linearizeCubicBezier]
  rw [if_pos hflat]

/-- Claim C9: whenever `linearizeCubicBezier` returns, the returned
point list is non-empty and its last element is exactly the curve
endpoint `p3`. -/
theorem claim_C9 (fuel : ℕ) (p0 p1 p2 p3 : Point) (tolerance : ℚ) (l : List Point)
    (h : linearizeCubicBezier fuel p0 p1 p2 p3 tolerance = some l) :
    l ≠ [] ∧ l.getLast? = some p3 :=
  ⟨linearize_some_ne_nil fuel p0 p1 p2 p3 tolerance l h,
   linearize_some_getLast fuel p0 p1 p2 p3 tolerance l h⟩

/-- Witness for C9 at a concrete flat curve. -/
theorem claim_C9_witness :
    ([⟨1, 0⟩] : List Point) ≠ [] ∧ ([⟨1, 0⟩] : List Point).getLast? = some ⟨1, 0⟩ :=
  claim_C9 1 ⟨0, 0⟩ ⟨0, 0⟩ ⟨0, 0⟩ ⟨1, 0⟩ (1 / 2) [⟨1, 0⟩] (by decide)

/-! ### Lemmas about the path-data parser -/

lemma runCmds_append (fuel : ℕ) (tf : Transform) (cmds : List PathCmd) (c : PathCmd) :
    ∀ st, runCmds fuel tf (cmds ++ [c]) st =
      (runCmds fuel tf cmds st).bind (fun st' => stepCmd fuel tf st' c) := by
  induction cmds with
  | nil =>
    intro st
    cases h : stepCmd fuel tf st c <;> simp [runCmds, h]
  | cons d ds ih =>
    intro st
    simp only [List.cons_append, runCmds]
    cases h : stepCmd fuel tf st d <;> simp [h, ih]

lemma stepCmd_Z (fuel : ℕ) (tf : Transform) (st : PState) (args : List JsNum) :
    stepCmd fuel tf st (CmdKind.Z, args) =
      some { st with
        closed := true,
        points :=
          match st.points.head?, st.points.getLast? with
          | some first, some lastP =>
            if lastP.x ≠ first.x ∨ lastP.y ≠ first.y then st.points ++ [first]
            else st.points
          | _, _ => st.points } := rfl

/-! ### Lemmas about the emitter -/

lemma digitChar_ne_dot (d : ℕ) : digitChar d ≠ '.' := by
  unfold digitChar
  split <;> decide

lemma takeWhile_append_stop (p : Char → Bool) (l1 l2 : List Char) (c : Char)
    (h1 : ∀ x ∈ l1, p x) (hc : ¬ p c) :
    (l1 ++ c :: l2).takeWhile p = l1 := by
  induction l1 with
  | nil => simp [List.takeWhile_cons, hc]
  | cons a l1 ih =>
    have ha : p a := h1 a (List.mem_cons_self a l1)
    simp only [List.cons_append, List.takeWhile_cons, ha, if_true]
    rw [ih fun x hx => h1 x (List.mem_cons_of_mem a hx)]

lemma decimalDigits_toFixed3 (q : ℚ) : decimalDigits (toFixed3 q) = 3 := by
  unfold toFixed3 decimalDigits
  simp only [String.data_append, List.reverse_append, List.reverse_cons,
    List.reverse_nil, List.nil_append, List.cons_append, List.append_assoc]
  rw [List.takeWhile_cons_of_pos (by simp [digitChar_ne_dot]),
    List.takeWhile_cons_of_pos (by simp [digitChar_ne_dot]),
    List.takeWhile_cons_of_pos (by simp [digitChar_ne_dot]),
    List.takeWhile_cons_of_neg (by decide)]
  rfl

lemma emitGroupPaths_eq (settings : Settings) (origin : Origin) :
    ∀ (ps : List Path) (n : ℕ),
      emitGroupPaths settings origin ps n =
        (specPathsBlocks settings origin n ps, n + countNonempty ps) := by
  intro ps
  induction ps with
  | nil =>
    intro n
    simp [emitGroupPaths, specPathsBlocks, countNonempty]
  | cons p rest ih =>
    intro n
    cases hp : p.points with
    | nil =>
      have hc : countNonempty (p :: rest) = countNonempty rest := by
        simp [countNonempty, List.filter_cons, hp]
      simp only [emitGroupPaths, hp, specPathsBlocks, hc]
      exact ih n
    | cons start restPoints =>
      have hc : countNonempty (p :: rest) = countNonempty rest + 1 := by
        simp [countNonempty, List.filter_cons, hp]
      simp only [emitGroupPaths, hp, specPathsBlocks, hc]
      rw [ih (n + 1)]
      refine Prod.ext ?_ ?_
      · simp [specPathBlock, outX, outY]
      · simp
        omega

lemma emitColorGroups_cons (settings : Settings) (origin : Origin)
    (colorKey : String) (groupPaths : List Path)
    (rest : List (String × List Path)) (n : ℕ) :
    emitColorGroups settings origin ((colorKey, groupPaths) :: rest) n =
      [GLine.blank,
       GLine.comment "; ========================================",
       GLine.comment ("; Color: " ++ colorKey ++ " (" ++
         natToStr groupPaths.length ++ " path" ++
         (if groupPaths.length ≠ 1 then "s" else "") ++ ")"),
       GLine.comment "; ========================================"] ++
      (emitGroupPaths settings origin groupPaths n).1 ++
      (if rest.isEmpty then []
       else
         [GLine.blank,
          GLine.comment "; Return to origin for pen change",
          GLine.raw settings.penUpCmd,
          GLine.raw "G0 X0 Y0",
          GLine.raw "M0 ; Pause - change to next pen, then resume"]) ++
      emitColorGroups settings origin rest
        (emitGroupPaths settings origin groupPaths n).2 := rfl

lemma specBuckets_single (settings : Settings) (origin : Origin)
    (colorKey : String) (groupPaths : List Path) (base : ℕ) :
    specBuckets settings origin [(colorKey, groupPaths)] base =
      specBucketHeader colorKey groupPaths ++
        specPathsBlocks settings origin base groupPaths := rfl

lemma specBuckets_cons2 (settings : Settings) (origin : Origin)
    (colorKey : String) (groupPaths : List Path) (b : String × List Path)
    (rest : List (String × List Path)) (base : ℕ) :
    specBuckets settings origin ((colorKey, groupPaths) :: b :: rest) base =
      specBucketHeader colorKey groupPaths ++
        specPathsBlocks settings origin base groupPaths ++
        specPenChange settings ++
        specBuckets settings origin (b :: rest)
          (base + countNonempty groupPaths) := rfl

lemma emitColorGroups_eq (settings : Settings) (origin : Origin) :
    ∀ (bs : List (String × List Path)) (n : ℕ),
      emitColorGroups settings origin bs n = specBuckets settings origin bs n := by
  intro bs
  induction bs with
  | nil => intro n; rfl
  | cons b rest ih =>
    intro n
    obtain ⟨colorKey, groupPaths⟩ := b
    cases rest with
    | nil =>
      rw [emitColorGroups_cons, emitGroupPaths_eq, specBuckets_single]
      simp [emitColorGroups, specBucketHeader]
    | cons b2 rest2 =>
      rw [emitColorGroups_cons, emitGroupPaths_eq, specBuckets_cons2, ih]
      simp [specBucketHeader, specPenChange, List.append_assoc]

/-- `pathsToGCode` equals the §4.6 specification shape: header comments
and directives, the bucket sequence with pen-change pauses between
consecutive buckets, and the footer. -/
lemma pathsToGCodeLines_eq_spec (paths : List Path) (settings : Settings)
    (origin : Origin) :
    pathsToGCodeLines paths settings origin =
      specHeaderLines settings origin paths.length (specGroup paths).length ++
        specBuckets settings origin (specGroup paths) 0 ++ specFooterLines := by
  simp only [pathsToGCodeLines, specHeaderLines, specFooterLines]
  rw [group_eq_specGroup, emitColorGroups_eq]
  simp [List.length_map, List.append_assoc]

lemma rapid_mem_specPathBlock {settings : Settings} {origin : Origin}
    {idx : ℕ} {start : Point} {restPoints : List Point} {x y : JsNum}
    (h : GLine.rapid x y ∈ specPathBlock settings origin idx start restPoints) :
    x = outX settings origin start ∧ y = outY settings origin start := by
  simp [specPathBlock] at h
  exact ⟨h.1, h.2⟩

lemma feed_mem_specPathBlock {settings : Settings} {origin : Origin}
    {idx : ℕ} {start : Point} {restPoints : List Point} {x y f : JsNum}
    (h : GLine.feed x y f ∈ specPathBlock settings origin idx start restPoints) :
    ∃ p ∈ restPoints, x = outX settings origin p ∧ y = outY settings origin p
      ∧ f = settings.feedRate := by
  simp [specPathBlock] at h
  obtain ⟨p, hp, hx, hy, hf⟩ := h
  exact ⟨p, hp, hx.symm, hy.symm, hf.symm⟩

lemma rapid_mem_specPathsBlocks {settings : Settings} {origin : Origin}
    {x y : JsNum} :
    ∀ {ps : List Path} {base : ℕ},
      GLine.rapid x y ∈ specPathsBlocks settings origin base ps →
      ∃ pa ∈ ps, ∃ p ∈ pa.points,
        x = outX settings origin p ∧ y = outY settings origin p := by
  intro ps
  induction ps with
  | nil =>
    intro base h
    simp [specPathsBlocks] at h
  | cons pa rest ih =>
    intro base h
    rcases hp : pa.points with _ | ⟨start, restPoints⟩ <;>
      simp only [specPathsBlocks, hp] at h
    · obtain ⟨pa', hpa', hrest⟩ := ih h
      exact ⟨pa', List.mem_cons_of_mem pa hpa', hrest⟩
    · rcases List.mem_append.mp h with h | h
      · obtain ⟨hx, hy⟩ := rapid_mem_specPathBlock h
        exact ⟨pa, List.mem_cons_self pa rest,
          start, by rw [hp]; exact List.mem_cons_self start restPoints, hx, hy⟩
      · obtain ⟨pa', hpa', hrest⟩ := ih h
        exact ⟨pa', List.mem_cons_of_mem pa hpa', hrest⟩

lemma feed_mem_specPathsBlocks {settings : Settings} {origin : Origin}
    {x y f : JsNum} :
    ∀ {ps : List Path} {base : ℕ},
      GLine.feed x y f ∈ specPathsBlocks settings origin base ps →
      f = settings.feedRate ∧ ∃ pa ∈ ps, ∃ p ∈ pa.points,
        x = outX settings origin p ∧ y = outY settings origin p := by
  intro ps
  induction ps with
  | nil =>
    intro base h
    simp [specPathsBlocks] at h
  | cons pa rest ih =>
    intro base h
    rcases hp : pa.points with _ | ⟨start, restPoints⟩ <;>
      simp only [specPathsBlocks, hp] at h
    · obtain ⟨hf, pa', hpa', hrest⟩ := ih h
      exact ⟨hf, pa', List.mem_cons_of_mem pa hpa', hrest⟩
    · rcases List.mem_append.mp h with h | h
      · obtain ⟨p, hmem, hx, hy, hf⟩ := feed_mem_specPathBlock h
        exact ⟨hf, pa, List.mem_cons_self pa rest,
          p, by rw [hp]; exact List.mem_cons_of_mem start hmem, hx, hy⟩
      · obtain ⟨hf, pa', hpa', hrest⟩ := ih h
        exact ⟨hf, pa', List.mem_cons_of_mem pa hpa', hrest⟩

lemma rapid_mem_specBuckets {settings : Settings} {origin : Origin}
    {x y : JsNum} :
    ∀ {bs : List (String × List Path)} {n : ℕ},
      GLine.rapid x y ∈ specBuckets settings origin bs n →
      ∃ b ∈ bs, ∃ pa ∈ b.2, ∃ p ∈ pa.points,
        x = outX settings origin p ∧ y = outY settings origin p := by
  intro bs
  induction bs with
  | nil =>
    intro n h
    simp [specBuckets] at h
  | cons b rest ih =>
    intro n h
    obtain ⟨colorKey, groupPaths⟩ := b
    cases rest with
    | nil =>
      rw [specBuckets_single] at h
      rcases List.mem_append.mp h with h | h
      · simp [specBucketHeader] at h
      · obtain ⟨pa, hpa, hrest⟩ := rapid_mem_specPathsBlocks h
        exact ⟨(colorKey, groupPaths), List.mem_cons_self _ _, pa, hpa, hrest⟩
    | cons b2 rest2 =>
      rw [specBuckets_cons2] at h
      rcases List.mem_append.mp h with h | h
      · rcases List.mem_append.mp h with h | h
        · rcases List.mem_append.mp h with h | h
          · simp [specBucketHeader] at h
          · obtain ⟨pa, hpa, hrest⟩ := rapid_mem_specPathsBlocks h
            exact ⟨(colorKey, groupPaths), List.mem_cons_self _ _, pa, hpa, hrest⟩
        · simp [specPenChange] at h
      · obtain ⟨b', hb', hrest⟩ := ih h
        exact ⟨b', List.mem_cons_of_mem _ hb', hrest⟩

lemma feed_mem_specBuckets {settings : Settings} {origin : Origin}
    {x y f : JsNum} :
    ∀ {bs : List (String × List Path)} {n : ℕ},
      GLine.feed x y f ∈ specBuckets settings origin bs n →
      f = settings.feedRate ∧ ∃ b ∈ bs, ∃ pa ∈ b.2, ∃ p ∈ pa.points,
        x = outX settings origin p ∧ y = outY settings origin p := by
  intro bs
  induction bs with
  | nil =>
    intro n h
    simp [specBuckets] at h
  | cons b rest ih =>
    intro n h
    obtain ⟨colorKey, groupPaths⟩ := b
    cases rest with
    | nil =>
      rw [specBuckets_single] at h
      rcases List.mem_append.mp h with h | h
      · simp [specBucketHeader] at h
      · obtain ⟨hf, pa, hpa, hrest⟩ := feed_mem_specPathsBlocks h
        exact ⟨hf, (colorKey, groupPaths), List.mem_cons_self _ _, pa, hpa, hrest⟩
    | cons b2 rest2 =>
      rw [specBuckets_cons2] at h
      rcases List.mem_append.mp h with h | h
      · rcases List.mem_append.mp h with h | h
        · rcases List.mem_append.mp h with h | h
          · simp [specBucketHeader] at h
          · obtain ⟨hf, pa, hpa, hrest⟩ := feed_mem_specPathsBlocks h
            exact ⟨hf, (colorKey, groupPaths), List.mem_cons_self _ _, pa, hpa, hrest⟩
        · simp [specPenChange] at h
      · obtain ⟨hf, b', hb', hrest⟩ := ih h
        exact ⟨hf, b', List.mem_cons_of_mem _ hb', hrest⟩

lemma mem_specGroup_paths {paths : List Path} {b : String × List Path}
    {pa : Path} (hb : b ∈ specGroup paths) (hpa : pa ∈ b.2) : pa ∈ paths := by
  unfold specGroup at hb
  obtain ⟨k, _, rfl⟩ := List.mem_map.mp hb
  exact (List.mem_filter.mp hpa).1

/-! ### Claim theorems for the path-data parser -/

/-- Counterexample to claim C5 as stated: on the tokenized command list
for `M 0 0 Z L 1 1`, the parsed path contains a `Z`, is non-empty, has
`closed = true`, yet its first and last points do not coincide, because
a point-appending command follows the final `Z`. -/
theorem claim_C5_counterexample :
    parsePathData 1 [(CmdKind.M, [0, 0]), (CmdKind.Z, []), (CmdKind.L, [1, 1])]
        idTransform =
      some ⟨[⟨0, 0⟩, ⟨1, 1⟩], true, none⟩
    ∧ ([⟨0, 0⟩, ⟨1, 1⟩] : List Point).head? ≠
        ([⟨0, 0⟩, ⟨1, 1⟩] : List Point).getLast? := by
  constructor
  · decide
  · decide

/-- Claim C5, amended: processing a `Z` command sets `closed = true` and
appends a duplicate of the first point exactly when the last emitted
point does not already equal the first point (by exact coordinate
comparison); consequently every non-empty parsed path whose command
list ends with `Z` has exactly coinciding first and last points.  (The
original claim's universal consequence fails when point-appending
commands follow the final `Z`.) -/
theorem claim_C5_amended :
    (∀ (fuel : ℕ) (tf : Transform) (st st' : PState) (args : List JsNum),
        stepCmd fuel tf st (CmdKind.Z, args) = some st' →
        st'.closed = true ∧
        (∀ first lastP, st.points.head? = some first →
          st.points.getLast? = some lastP →
          st'.points = if lastP ≠ first then st.points ++ [first] else st.points))
    ∧ (∀ (fuel : ℕ) (tf : Transform) (cmds : List PathCmd) (args : List JsNum)
        (path : Path),
        parsePathData fuel (cmds ++ [(CmdKind.Z, args)]) tf = some path →
        path.points ≠ [] →
        path.closed = true ∧ path.points.head? = path.points.getLast?) := by
  constructor
  · intro fuel tf st st' args h
    rw [stepCmd_Z] at h
    cases h
    refine ⟨rfl, fun first lastP hfirst hlast => ?_⟩
    simp only [hfirst, hlast]
    by_cases he : lastP = first
    · subst he
      simp
    · have hxy : lastP.x ≠ first.x ∨ lastP.y ≠ first.y := by
        by_contra hc
        push_neg at hc
        exact he (by cases lastP; cases first; simp_all)
      rw [if_pos hxy, if_pos he]
  · intro fuel tf cmds args path h hne
    unfold parsePathData at h
    rw [runCmds_append] at h
    rcases h0 : runCmds fuel tf cmds ⟨[], false, 0, 0⟩ with _ | st0
    · rw [h0] at h
      simp at h
    · rw [h0] at h
      simp only [Option.some_bind, stepCmd_Z] at h
      rcases hp : st0.points with _ | ⟨q, rest⟩ <;> rw [hp] at h
      · simp only [List.head?_nil, Option.map_some] at h
        cases h
        exact absurd rfl hne
      · obtain ⟨lastP, hlast⟩ : ∃ lastP, (q :: rest).getLast? = some lastP :=
          Option.isSome_iff_exists.mp (by simp)
        rw [hlast] at h
        simp only [List.head?_cons, Option.map_some] at h
        by_cases hxy : lastP.x ≠ q.x ∨ lastP.y ≠ q.y
        · rw [if_pos hxy] at h
          cases h
          refine ⟨rfl, ?_⟩
          show some q = (q :: (rest ++ [q])).getLast?
          rw [← List.cons_append, List.getLast?_concat]
        · rw [if_neg hxy] at h
          cases h
          push_neg at hxy
          have hq : lastP = q := by
            cases lastP
            cases q
            simp_all
          refine ⟨rfl, ?_⟩
          simp only [List.head?_cons, hlast, hq]

/-- Witness for the amended C5 on the tokenized commands of
`M 0 0 L 2 0 Z`. -/
theorem claim_C5_witness :
    (⟨[⟨0, 0⟩, ⟨2, 0⟩, ⟨0, 0⟩], true, none⟩ : Path).closed = true ∧
    ((⟨[⟨0, 0⟩, ⟨2, 0⟩, ⟨0, 0⟩], true, none⟩ : Path).points).head? =
      ((⟨[⟨0, 0⟩, ⟨2, 0⟩, ⟨0, 0⟩], true, none⟩ : Path).points).getLast? :=
  claim_C5_amended.2 1 idTransform [(CmdKind.M, [0, 0]), (CmdKind.L, [2, 0])] []
    ⟨[⟨0, 0⟩, ⟨2, 0⟩, ⟨0, 0⟩], true, none⟩ (by decide) (by decide)

/-! ### Claim theorems for the G-code emitter -/

/-- Claim C1: every motion line the emitter produces for a path point
`p` carries exactly the coordinates
`outX = (p.x - origin.x) / settings.scale` and
`outY = (origin.height - (p.y - origin.y)) / settings.scale`; rendering
uses `toFixed3`, which always produces exactly 3 decimal digits; a
point at the origin rectangle's top edge maps to output
`Y = height / scale` and a point at its bottom edge maps to output
`Y = 0`. -/
theorem claim_C1 :
    (∀ (paths : List Path) (settings : Settings) (origin : Origin) (x y : JsNum),
        GLine.rapid x y ∈ pathsToGCodeLines paths settings origin →
        ∃ pa ∈ paths, ∃ p ∈ pa.points,
          x = outX settings origin p ∧ y = outY settings origin p)
    ∧ (∀ (paths : List Path) (settings : Settings) (origin : Origin) (x y f : JsNum),
        GLine.feed x y f ∈ pathsToGCodeLines paths settings origin →
        f = settings.feedRate ∧ ∃ pa ∈ paths, ∃ p ∈ pa.points,
          x = outX settings origin p ∧ y = outY settings origin p)
    ∧ (∀ x y : JsNum,
        renderLine (GLine.rapid x y) = "G0 X" ++ toFixed3 x ++ " Y" ++ toFixed3 y)
    ∧ (∀ x y f : JsNum,
        renderLine (GLine.feed x y f) =
          "G1 X" ++ toFixed3 x ++ " Y" ++ toFixed3 y ++ " F" ++ jsNumToString f)
    ∧ (∀ q : JsNum, decimalDigits (toFixed3 q) = 3)
    ∧ (∀ (settings : Settings) (origin : Origin) (p : Point),
        p.y = origin.y →
        outY settings origin p = origin.height / settings.scale)
    ∧ (∀ (settings : Settings) (origin : Origin) (p : Point),
        p.y = origin.y + origin.height → outY settings origin p = 0) := by
  refine ⟨?_, ?_, fun x y => rfl, fun x y f => rfl, decimalDigits_toFixed3,
    ?_, ?_⟩
  · intro paths settings origin x y h
    rw [pathsToGCodeLines_eq_spec] at h
    rcases List.mem_append.mp h with h | h
    · rcases List.mem_append.mp h with h | h
      · simp [specHeaderLines] at h
      · obtain ⟨b, hb, pa, hpa, hrest⟩ := rapid_mem_specBuckets h
        exact ⟨pa, mem_specGroup_paths hb hpa, hrest⟩
    · simp [specFooterLines] at h
  · intro paths settings origin x y f h
    rw [pathsToGCodeLines_eq_spec] at h
    rcases List.mem_append.mp h with h | h
    · rcases List.mem_append.mp h with h | h
      · simp [specHeaderLines] at h
      · obtain ⟨hf, b, hb, pa, hpa, hrest⟩ := feed_mem_specBuckets h
        exact ⟨hf, pa, mem_specGroup_paths hb hpa, hrest⟩
    · simp [specFooterLines] at h
  · intro settings origin p hp
    unfold outY
    rw [hp]
    rw [show origin.height - (origin.y - origin.y) = origin.height by ring]
  · intro settings origin p hp
    unfold outY
    rw [hp]
    rw [show origin.height - (origin.y + origin.height - origin.y) = 0 by ring,
      zero_div]

/-- Witness for C1: the rapid move of the concrete program for
`exPath1` hits point `(1, 1)`, which transforms to `(1, 9)`; the top and
bottom edge values and the 3-digit rendering are checked at concrete
inputs. -/
theorem claim_C1_witness :
    (∃ pa ∈ [exPath1], ∃ p ∈ pa.points,
        (1 : JsNum) = outX exSettings exOrigin p ∧
        (9 : JsNum) = outY exSettings exOrigin p)
    ∧ outY exSettings exOrigin ⟨5, 0⟩ = exOrigin.height / exSettings.scale
    ∧ outY exSettings exOrigin ⟨5, 10⟩ = 0
    ∧ decimalDigits (toFixed3 (157 / 50)) = 3 :=
  ⟨claim_C1.1 [exPath1] exSettings exOrigin 1 9 (by decide),
   claim_C1.2.2.2.2.2.1 exSettings exOrigin ⟨5, 0⟩ (by decide),
   claim_C1.2.2.2.2.2.2 exSettings exOrigin ⟨5, 10⟩ (by decide),
   claim_C1.2.2.2.2.1 (157 / 50)⟩

/-- Counterexample to claim C2 as stated: for one non-empty red path
followed by one zero-point blue path, the emitted motion/directive
sequence is not the sequence the claim enumerates — the emitter inserts
an extra `penUpCmd` before the between-bucket rapid/pause, and the
zero-point path's color still forms a second bucket, triggering that
pen-change block at all. -/
theorem claim_C2_counterexample :
    motionOnly (pathsToGCodeLines [exPath1, exPathEmptyBlue] exSettings exOrigin) ≠
      c2ClaimedLines [exPath1, exPathEmptyBlue] exSettings exOrigin := by
  decide

/-- Claim C2, amended: the emitted line sequence is exactly: header
comments, a blank, the unit directive (G21 for mm, G20 for inch), G90,
G17, a blank, one `penUpCmd`; then for each color bucket in
first-encounter order a bucket comment header and, for each path with
at least one point, a blank, a path-number comment, one rapid move to
the path's first transformed point, `penDownCmd`, one linear move at
`settings.feedRate` per remaining point, then `penUpCmd`; between
consecutive buckets (not after the last) an additional `penUpCmd`, a
rapid move to the machine origin and the program-pause directive M0;
after the final bucket a blank, an end comment, a rapid move to the
machine origin, then M2.  A path with zero points contributes no
motion lines and does not advance the path numbering, but it still
counts in the header path count and its bucket's size comment, and its
color still participates in bucket formation. -/
theorem claim_C2_amended (paths : List Path) (settings : Settings) (origin : Origin) :
    pathsToGCodeLines paths settings origin =
      specHeaderLines settings origin paths.length (specGroup paths).length ++
        specBuckets settings origin (specGroup paths) 0 ++ specFooterLines :=
  pathsToGCodeLines_eq_spec paths settings origin

/-- Claim C3, evaluated at the failing configuration: with
`scale = 0` and `feedRate = 0` the conversion performs no validation
and still emits motion lines computed by dividing by `scale`; in the
exact embedding the division by zero yields coordinate `0` (JavaScript
instead renders `Infinity`/`NaN` into the program text).  No rejection
path exists in `pathsToGCode` or its callers. -/
theorem claim_C3_code_bug :
    GLine.rapid 0 0 ∈
      pathsToGCodeLines [⟨[⟨3, 4⟩], false, none⟩]
        ⟨Units.mm, 0, 0, "M5", "M3"⟩ ⟨0, 0, 10, true⟩ := by
  decide

/-! ### Claim theorems for the stroke font engine -/

/-- Counterexample to claim C8 as stated: for the text `"A"` with a
degenerate target box (`targetWidth = 0`), `textNodeToPaths` does not
yield zero paths — the glyph's three strokes are emitted, merely scaled
by factor 0 in X. -/
theorem claim_C8_counterexample :
    textNodeToPaths ['A'] 0 10 idTransform none ≠ [] := by
  decide

/-- Claim C8, amended: the zero-paths guard tests the Hershey design
measurement, not the target box: for every text whose design
measurement is degenerate (width 0 — e.g. empty text or text consisting
only of line breaks — or height 0), `textNodeToPaths` yields zero paths
(and, being total, does not throw); a degenerate target box instead
scales the emitted strokes by factor 0. -/
theorem claim_C8_amended (text : List Char) (targetWidth targetHeight : JsNum)
    (transform : Transform) (color : Option StrokeColor)
    (h : (measureHersheyText text).1 = 0 ∨ (measureHersheyText text).2 = 0) :
    textNodeToPaths text targetWidth targetHeight transform color = [] := by
  simp only [textNodeToPaths]
  by_cases ht : text = []
  · rw [if_pos ht]
  · rw [if_neg ht, if_pos h]

/-- Witness for the amended C8 at the text consisting of one newline
(design width 0). -/
theorem claim_C8_witness :
    textNodeToPaths ['\n'] 5 5 idTransform none = [] :=
  claim_C8_amended ['\n'] 5 5 idTransform none (Or.inl (by decide))

/-! ### Claim theorems for the color grouper -/

/-- Claim C4: `groupPathsByColor` keys each path by the rounded
8-bit-per-channel hex string of its color's R, G, B channels (alpha
excluded, so two paths differing only in opacity share a bucket), puts
paths without a color into one reserved `DEFAULT` bucket, orders buckets
by first appearance in the input, and preserves original relative order
within each bucket; for colors `[A, A, B, A, B]` on 5 paths it yields
buckets `[A, B]` with 3 and 2 paths respectively in original relative
order. -/
theorem claim_C4 :
    (∀ paths : List Path, groupPathsByColor paths = specGroup paths)
    ∧ (∀ (c : StrokeColor) (a' : JsNum),
        colorToHex { c with a := a' } = colorToHex c)
    ∧ (∀ paths : List Path,
        ((groupPathsByColor paths).lookup "DEFAULT").getD [] =
          paths.filter (fun p => p.color.isNone))
    ∧ groupPathsByColor exPaths5 =
        [("#FF0000",
          [⟨[⟨0, 0⟩], false, some exRed⟩,
           ⟨[⟨1, 0⟩], false, some exRed⟩,
           ⟨[⟨3, 0⟩], false, some exRed⟩]),
         ("#0000FF",
          [⟨[⟨2, 0⟩], false, some exBlue⟩,
           ⟨[⟨4, 0⟩], false, some exBlue⟩])] := by
  refine ⟨group_eq_specGroup, fun c a' => rfl, fun paths => ?_, by decide⟩
  rw [group_eq_specGroup]
  unfold specGroup
  rw [lookup_map_keys]
  by_cases hm : "DEFAULT" ∈ firstOccurrences (paths.map keyOf)
  · rw [if_pos hm]
    exact filter_default_eq paths
  · rw [if_neg hm]
    symm
    simp only [Option.getD_none]
    rw [List.filter_eq_nil_iff]
    intro p hp hcol
    apply hm
    rw [mem_firstOccurrences]
    refine List.mem_map.mpr ⟨p, hp, ?_⟩
    simp [keyOf, Option.isNone_iff_eq_none.mp hcol]

/-- Claim C10: concatenating the buckets returned by `groupPathsByColor`
in bucket order yields a permutation of the input: every input path
occurs with the same multiplicity as in the input, the sum of bucket
sizes equals the input length, and bucket keys are pairwise distinct. -/
theorem claim_C10 (paths : List Path) :
    ((groupPathsByColor paths).map Prod.snd).flatten.Perm paths
    ∧ ((groupPathsByColor paths).map (fun b => b.2.length)).sum = paths.length
    ∧ ((groupPathsByColor paths).map Prod.fst).Nodup
    ∧ ∀ p : Path,
        ((groupPathsByColor paths).map Prod.snd).flatten.count p = paths.count p := by
  refine ⟨flatten_group_perm paths, ?_, ?_, fun p => (flatten_group_perm paths).count_eq p⟩
  · have hlen := (flatten_group_perm paths).length_eq
    rw [List.length_flatten, List.map_map] at hlen
    simpa [Function.comp] using hlen
  · rw [group_eq_specGroup, specGroup_keys]
    exact nodup_firstOccurrences _

end FigmaGCode
